import Mathlib

/-
Verification of the schedule cache core of main.py (ChuntFM schedule API).

The embedding models the program state explicitly:
  * timestamps of the store and the cache clock are integer instants in UTC
    (Python compares and subtracts timezone-aware datetimes, which for a
    fixed zone is order- and difference-isomorphic to integers);
  * the opaque payload column is a string decoded by a model of Python
    json.loads restricted to integer numerals and escape-free strings,
    which is the subset the claims exercise;
  * exceptions are modelled with Except / Option; a caught exception is a
    handled error value, an uncaught one an Except.error result.
-/

namespace ChuntFM

/-- Values produced by the model of Python json.loads: null, booleans,
integer numbers, strings, arrays and objects.  Fractional numbers and
escape sequences inside strings are outside the modelled subset. -/
inductive JsonValue where
  | null : JsonValue
  | bool : Bool → JsonValue
  | num : Int → JsonValue
  | str : String → JsonValue
  | arr : List JsonValue → JsonValue
  | obj : List (String × JsonValue) → JsonValue

/-- A Python dict with string keys, as an association list in insertion
order.  Dicts built by the program have pairwise distinct keys. -/
abbrev Dict := List (String × JsonValue)

/-- Whether the value is a JSON object (a Python mapping after decoding). -/
def JsonValue.isObjB : JsonValue → Bool
  | .obj _ => true
  | _ => false

/-- Key membership test of a Python dict. -/
def containsKey (d : Dict) (k : String) : Bool :=
  d.any (fun p => p.1 == k)

/-- Lookup in a Python dict: the first entry with the key. -/
def dictGet : Dict → String → Option JsonValue
  | [], _ => none
  | (k0, v0) :: rest, k => bif k0 == k then some v0 else dictGet rest k

/-- Assignment d[k] = v of a Python dict: an existing key keeps its
position and receives the new value, a new key is appended. -/
def dictInsert (d : Dict) (k : String) (v : JsonValue) : Dict :=
  bif containsKey d k then d.map (fun p => bif p.1 == k then (k, v) else p)
  else d ++ [(k, v)]

/-- The dict-literal merge of Python, as in writing a base dict followed by
a double-star expansion: every key of the second argument is assigned into
the first, in order, so later keys win. -/
def dictMerge (d : Dict) (kvs : Dict) : Dict :=
  kvs.foldl (fun acc p => dictInsert acc p.1 p.2) d

/-- The value the last entry of an association list gives a key.  For the
duplicate-free dicts produced by the parser this is the plain lookup. -/
def lookupLast : Dict → String → Option JsonValue
  | [], _ => none
  | (k0, v0) :: rest, k =>
    match lookupLast rest k with
    | some v => some v
    | none => bif k0 == k then some v0 else none

/-! Model of Python json.loads on the subset described at JsonValue.
The parser is fuel-indexed; json_loads supplies fuel larger than any
nesting of its input. -/

/-- JSON whitespace test. -/
def isWsChar (c : Char) : Bool :=
  c == ' ' || c == '\t' || c == '\n' || c == '\r'

/-- Drop leading JSON whitespace. -/
def skipWs : List Char → List Char
  | [] => []
  | c :: rest => if isWsChar c then skipWs rest else c :: rest

/-- Decimal digit test. -/
def isDigitChar (c : Char) : Bool :=
  '0' ≤ c && c ≤ '9'

/-- Numeric value of a decimal digit. -/
def digitVal (c : Char) : Nat := c.toNat - '0'.toNat

/-- Consume a maximal run of digits, accumulating their value. -/
def jDigits : List Char → Nat → Nat × List Char
  | [], acc => (acc, [])
  | c :: rest, acc =>
    if isDigitChar c then jDigits rest (acc * 10 + digitVal c) else (acc, c :: rest)

/-- Read an integer numeral, with optional leading minus sign. -/
def jNumber : List Char → Option (Int × List Char)
  | [] => none
  | c :: rest =>
    if c == '-' then
      match rest with
      | d :: _ =>
        if isDigitChar d then
          match jDigits rest 0 with
          | (n, rem) => some (-(Int.ofNat n), rem)
        else none
      | [] => none
    else if isDigitChar c then
      match jDigits (c :: rest) 0 with
      | (n, rem) => some (Int.ofNat n, rem)
    else none

/-- Read the characters of a string literal up to the closing quote; the
opening quote has been consumed already.  Escape sequences are outside the
modelled subset. -/
def jStrChars : List Char → Option (List Char × List Char)
  | [] => none
  | c :: rest =>
    if c == '"' then some ([], rest)
    else
      match jStrChars rest with
      | some (s, rem) => some (c :: s, rem)
      | none => none

/-- Match a literal keyword such as true, false or null. -/
def matchChars : List Char → List Char → Option (List Char)
  | [], cs => some cs
  | _ :: _, [] => none
  | p :: ps, c :: cs => if c == p then matchChars ps cs else none

mutual

/-- Parse one JSON value.  The first argument is fuel. -/
def jValue : Nat → List Char → Option (JsonValue × List Char)
  | 0, _ => none
  | f + 1, cs =>
    match skipWs cs with
    | [] => none
    | c :: rest =>
      if c == '\x7b' then
        match skipWs rest with
        | [] => none
        | c2 :: rest2 =>
          if c2 == '\x7d' then some (.obj [], rest2)
          else jObjElems f (c2 :: rest2) []
      else if c == '[' then
        match skipWs rest with
        | [] => none
        | c2 :: rest2 =>
          if c2 == ']' then some (.arr [], rest2)
          else jArrElems f (c2 :: rest2) []
      else if c == '"' then
        match jStrChars rest with
        | some (s, rem) => some (.str (String.mk s), rem)
        | none => none
      else
        match matchChars ['t', 'r', 'u', 'e'] (c :: rest) with
        | some rem => some (.bool true, rem)
        | none =>
          match matchChars ['f', 'a', 'l', 's', 'e'] (c :: rest) with
          | some rem => some (.bool false, rem)
          | none =>
            match matchChars ['n', 'u', 'l', 'l'] (c :: rest) with
            | some rem => some (.null, rem)
            | none =>
              match jNumber (c :: rest) with
              | some (n, rem) => some (.num n, rem)
              | none => none

/-- Parse the elements of a non-empty array; the opening bracket has been
consumed. -/
def jArrElems : Nat → List Char → List JsonValue → Option (JsonValue × List Char)
  | 0, _, _ => none
  | f + 1, cs, acc =>
    match jValue f cs with
    | none => none
    | some (v, rem) =>
      match skipWs rem with
      | [] => none
      | c :: rest =>
        if c == ',' then jArrElems f rest (acc ++ [v])
        else if c == ']' then some (.arr (acc ++ [v]), rest)
        else none

/-- Parse the members of a non-empty object; the opening brace has been
consumed.  Duplicate keys follow Python: the later assignment wins. -/
def jObjElems : Nat → List Char → Dict → Option (JsonValue × List Char)
  | 0, _, _ => none
  | f + 1, cs, acc =>
    match skipWs cs with
    | [] => none
    | c :: rest =>
      if c == '"' then
        match jStrChars rest with
        | none => none
        | some (kcs, rem) =>
          match skipWs rem with
          | [] => none
          | c2 :: rest2 =>
            if c2 == ':' then
              match jValue f rest2 with
              | none => none
              | some (v, rem2) =>
                match skipWs rem2 with
                | [] => none
                | c3 :: rest3 =>
                  if c3 == ',' then jObjElems f rest3 (dictInsert acc (String.mk kcs) v)
                  else if c3 == '\x7d' then some (.obj (dictInsert acc (String.mk kcs) v), rest3)
                  else none
            else none
      else none

end

/-- Model of json.loads: parse one value and require only whitespace after
it; any failure is the JSONDecodeError case, modelled as none. -/
def json_loads (s : String) : Option JsonValue :=
  match jValue (s.length + 1) s.data with
  | some (v, rem) =>
    match skipWs rem with
    | [] => some v
    | _ :: _ => none
  | none => none

/-- The Python exceptions the modelled code can raise or handle. -/
inductive PyErr where
  | typeError : PyErr
  | httpException : Nat → String → PyErr
  | storeFailure : PyErr
deriving DecidableEq

/-- A raw row of the schedule table: id, start, stop and the opaque
payload column named data.  Instants are integers, see the header. -/
structure ScheduleRow where
  id : Int
  start : Int
  stop : Int
  data : String
deriving DecidableEq

/-- Model of datetime.isoformat restricted to what the claims observe: an
injective rendering of the instant as a string.  No claim inspects the
textual format, only that equal instants render equally. -/
def isoformat (t : Int) : String := "@" ++ toString t

/-- The dict literal that get_parsed_data builds before merging the
decoded payload: id, start and stop of the row. -/
def baseEntry (item : ScheduleRow) : Dict :=
  [("id", .num item.id), ("start", .str (isoformat item.start)),
   ("stop", .str (isoformat item.stop))]

/-- Model of get_parsed_data (main.py lines 110 to 121).  json.loads
failure raises JSONDecodeError, which the source catches and replaces with
the raw_data wrapper; a payload decoding to a non-object makes the
double-star expansion of the dict literal raise an uncaught TypeError,
because only a mapping can be expanded. -/
def get_parsed_data (item : ScheduleRow) : Except PyErr Dict :=
  match json_loads item.data with
  | none => .ok (dictMerge (baseEntry item) [("raw_data", .str item.data)])
  | some (.obj kvs) => .ok (dictMerge (baseEntry item) kvs)
  | some _ => .error .typeError

/-- The cache dictionary built by refresh_cache: the four buckets, each an
ordered list of normalized entries. -/
structure CacheSnapshot where
  previous : List Dict
  upnext : List Dict
  now : List Dict
  all : List Dict

/-- The empty bucket dictionary installed at the top of refresh_cache. -/
def emptySnapshot : CacheSnapshot := ⟨[], [], [], []⟩

/-- The classification loop of refresh_cache (main.py lines 167 to 176),
threading the bucket dictionary it fills.  The second component reports an
uncaught exception of the loop body; the first is the bucket dictionary at
that moment, since the source mutates the installed dict in place. -/
def refresh_loop (tnow : Int) : List ScheduleRow → CacheSnapshot → CacheSnapshot × Option PyErr
  | [], acc => (acc, none)
  | item :: rest, acc =>
    match get_parsed_data item with
    | .error e => (acc, some e)
    | .ok parsed_item =>
      let acc1 : CacheSnapshot := { acc with all := acc.all ++ [parsed_item] }
      let acc2 : CacheSnapshot :=
        if item.stop < tnow then { acc1 with previous := acc1.previous ++ [parsed_item] }
        else if item.start > tnow then { acc1 with upnext := acc1.upnext ++ [parsed_item] }
        else if item.start ≤ tnow ∧ tnow ≤ item.stop then { acc1 with now := acc1.now ++ [parsed_item] }
        else acc1
      refresh_loop tnow rest acc2

/-- The snapshot refresh_cache (main.py lines 152 to 178) computes from
the fetched rows at the instant tnow, or the exception it raises. -/
def refresh_cache (rows : List ScheduleRow) (tnow : Int) : Except PyErr CacheSnapshot :=
  match refresh_loop tnow rows emptySnapshot with
  | (snap, none) => .ok snap
  | (_, some e) => .error e

/-- The behaviour of the record store during one request: the result of
the full-table query and the result of the MAX timestamp scalar query used
by check_cache_validity.  An Except.error is a raised database error. -/
structure DbBehavior where
  rowsResult : Except PyErr (List ScheduleRow)
  maxTsResult : Except PyErr (Option Int)

/-- The module-global cache state: cache_data (none models the initial
empty dict) and cache_last_updated. -/
structure CacheState where
  cache_data : Option CacheSnapshot
  cache_last_updated : Option Int

/-- Model of check_cache_validity (main.py lines 123 to 150).  The clock
read for the TTL age is the tnow argument; the store timestamp query is
wrapped in a bare except, so its failure skips the staleness check. -/
def check_cache_validity (enabled : Bool) (ttl : Int) (st : CacheState)
    (db : DbBehavior) (tnow : Int) : Bool :=
  if !enabled then false
  else
    match st.cache_last_updated with
    | none => false
    | some clu =>
      if decide (0 < ttl) && decide (tnow - clu > ttl) then false
      else
        match db.maxTsResult with
        | .error _ => true
        | .ok none => true
        | .ok (some t) => if decide (t > clu) then false else true

/-- The state effect of refresh_cache: on a successful loop the new
snapshot and timestamp are installed; a mid-loop exception leaves the
snapshot filled so far installed and the timestamp untouched; a failing
row query leaves everything untouched. -/
def refresh_cache_st (st : CacheState) (db : DbBehavior) (tnow : Int) :
    CacheState × Option PyErr :=
  match db.rowsResult with
  | .error e => (st, some e)
  | .ok rows =>
    match refresh_loop tnow rows emptySnapshot with
    | (snap, some e) => ({ cache_data := some snap, cache_last_updated := st.cache_last_updated }, some e)
    | (snap, none) => ({ cache_data := some snap, cache_last_updated := some tnow }, none)

/-- Bucket selection of the cached dict, as cache_data.get(key, []). -/
def snapGet (snap : CacheSnapshot) (key : String) : List Dict :=
  if key == "previous" then snap.previous
  else if key == "upnext" then snap.upnext
  else if key == "now" then snap.now
  else if key == "all" then snap.all
  else []

/-- cache_data.get(key, []) on the global state. -/
def cacheGet (st : CacheState) (key : String) : List Dict :=
  match st.cache_data with
  | none => []
  | some snap => snapGet snap key

/-- The direct, uncached scan of get_cached_data (main.py lines 186 to
204): one pass over the fetched rows against a single tnow, per-row
failures skipped by the inner try. -/
def direct_scan (key : String) (rows : List ScheduleRow) (tnow : Int) : List Dict :=
  match rows with
  | [] => []
  | item :: rest =>
    match get_parsed_data item with
    | .error _ => direct_scan key rest tnow
    | .ok parsed_item =>
      if key == "previous" && decide (item.stop < tnow) then
        parsed_item :: direct_scan key rest tnow
      else if key == "upnext" && decide (item.start > tnow) then
        parsed_item :: direct_scan key rest tnow
      else if key == "now" && (decide (item.start ≤ tnow) && decide (tnow ≤ item.stop)) then
        parsed_item :: direct_scan key rest tnow
      else if key == "all" then
        parsed_item :: direct_scan key rest tnow
      else direct_scan key rest tnow

/-- Model of get_cached_data (main.py lines 180 to 217), returning the
response value and the cache state afterwards.  The source catches every
exception: the opportunistic refresh failure is swallowed, and a failing
row query yields the empty list, so the function is total. -/
def get_cached_data_st (enabled : Bool) (ttl : Int) (key : String) (st : CacheState)
    (db : DbBehavior) (tnow : Int) : List Dict × CacheState :=
  if enabled && check_cache_validity enabled ttl st db tnow then
    (cacheGet st key, st)
  else
    match db.rowsResult with
    | .error _ => ([], st)
    | .ok rows =>
      let results := direct_scan key rows tnow
      if enabled && !check_cache_validity enabled ttl st db tnow then
        (results, (refresh_cache_st st db tnow).fst)
      else
        (results, st)

/-- Python truthiness of an optional string: None and the empty string are
falsy. -/
def pyTruthy : Option String → Bool
  | none => false
  | some s => !(s == "")

/-- Character-wise lowercasing, the model of str.lower on the payloads the
claims exercise. -/
def lowerStr (s : String) : String := String.mk (s.data.map Char.toLower)

/-- Whether the first list of characters occurs at the head of the
second. -/
def headMatches : List Char → List Char → Bool
  | [], _ => true
  | _ :: _, [] => false
  | a :: as, b :: bs => a == b && headMatches as bs

/-- The substring test of the Python in operator on strings. -/
def strIn (needle haystack : String) : Bool :=
  go needle.data haystack.data
where
  go (n : List Char) : List Char → Bool
    | [] => headMatches n []
    | c :: rest => headMatches n (c :: rest) || go n rest

/-- Model of the render Python str applies to a decoded value before the
substring test of search_schedule; on strings it is the string itself. -/
def pyStr : JsonValue → String
  | .str s => s
  | .null => "None"
  | .bool true => "True"
  | .bool false => "False"
  | .num n => toString n
  | .arr _ => "[...]"
  | .obj _ => "\x7b...\x7d"

/-- The per-item match of the search loop (main.py lines 287 to 299): a
term matches when it is truthy, the field exists and the lowercased term
occurs in the lowercased rendered field; either field suffices. -/
def searchMatch (title description : Option String) (item : Dict) : Bool :=
  let m1 :=
    match title with
    | some t => !(t == "") &&
        (match dictGet item "title" with
         | some v => strIn (lowerStr t) (lowerStr (pyStr v))
         | none => false)
    | none => false
  let m2 :=
    match description with
    | some s => !(s == "") &&
        (match dictGet item "description" with
         | some v => strIn (lowerStr s) (lowerStr (pyStr v))
         | none => false)
    | none => false
  m1 || m2

/-- The HTTP 400 error search_schedule raises without a usable term. -/
def searchErr : PyErr :=
  .httpException 400 "Either title or description must be provided"

/-- Model of search_schedule (main.py lines 276 to 301) applied to the
entries of the all bucket.  Python not on the query strings is falsy for
None and for the empty string alike. -/
def search_schedule (title description : Option String) (all_items : List Dict) :
    Except PyErr (List Dict) :=
  if !pyTruthy title && !pyTruthy description then .error searchErr
  else .ok (all_items.filter (searchMatch title description))

/-- Model of manual_cache_refresh (main.py lines 408 to 419): the
response (an uncaught refresh exception propagates), whether refresh_cache
was invoked, and the cache state afterwards. -/
def manual_cache_refresh (api_key admin_key : String) (enabled : Bool)
    (st : CacheState) (db : DbBehavior) (tnow : Int) :
    Except PyErr String × Bool × CacheState :=
  if !(api_key == admin_key) then (.error (.httpException 401 "Invalid API key"), false, st)
  else if !enabled then (.ok "Cache is disabled", false, st)
  else
    match refresh_cache_st st db tnow with
    | (st2, some e) => (.error e, true, st2)
    | (st2, none) => (.ok "Cache refreshed successfully", true, st2)

/-! Model of the time lookup endpoint.  Here calendar structure matters,
so instants are aware datetimes in UTC with their seven fields, ordered
lexicographically exactly as Python orders aware datetimes of one zone. -/

/-- An aware datetime in UTC. -/
structure PyDateTime where
  year : Nat
  month : Nat
  day : Nat
  hour : Nat
  minute : Nat
  second : Nat
  microsecond : Nat
deriving DecidableEq

/-- Lexicographic comparison of datetimes, the Python comparison of aware
datetimes sharing a zone. -/
def dtCompare (a b : PyDateTime) : Ordering :=
  (compare a.year b.year).then ((compare a.month b.month).then
    ((compare a.day b.day).then ((compare a.hour b.hour).then
      ((compare a.minute b.minute).then ((compare a.second b.second).then
        (compare a.microsecond b.microsecond))))))

/-- The less-or-equal test on datetimes. -/
def dtLe (a b : PyDateTime) : Bool := !(dtCompare a b == Ordering.gt)

/-- datetime.replace to the first instant of the day. -/
def startOfDay (d : PyDateTime) : PyDateTime :=
  { d with hour := 0, minute := 0, second := 0, microsecond := 0 }

/-- datetime.replace to the last representable instant of the day. -/
def endOfDay (d : PyDateTime) : PyDateTime :=
  { d with hour := 23, minute := 59, second := 59, microsecond := 999999 }

/-- Character membership in a string, the Python in operator on a string
and a one-character needle. -/
def hasChar (s : String) (c : Char) : Bool := s.data.any (fun x => x == c)

/-- Model of parse_timestamp_lenient (main.py lines 303 to 332).  The
numeric work of datetime.fromisoformat and dateutil parsing is supplied as
the argument parsed: the branch structure over the query text is from the
source, with naive results already coerced to UTC. -/
def parse_timestamp_lenient (time_str : String) (parsed : PyDateTime) :
    PyDateTime × PyDateTime :=
  if hasChar time_str 'T' || hasChar time_str '+' || hasChar time_str 'Z' then
    (parsed, parsed)
  else if (time_str.data.count ':' == 0) && !hasChar time_str 'T' then
    (startOfDay parsed, endOfDay parsed)
  else
    (parsed, parsed)

/-- An entry as seen by the time lookup loop: the fromisoformat results of
its start and stop fields (none models a field whose parse raises, which
the inner try skips), and the rest of the normalized entry abstracted to a
label. -/
structure TimedItem where
  start : Option PyDateTime
  stop : Option PyDateTime
  label : String
deriving DecidableEq

/-- Model of the filtering loop of get_schedule_at_time (main.py lines
359 to 378): the overlap test of each entry against the query window
computed once per request. -/
def get_schedule_at_time (time_str : String) (parsed : PyDateTime)
    (all_items : List TimedItem) : List TimedItem :=
  let q := parse_timestamp_lenient time_str parsed
  all_items.filter (fun it =>
    match it.start, it.stop with
    | some s, some e => dtLe s q.2 && dtLe q.1 e
    | _, _ => false)

/-! Specification-side helpers used only to state properties. -/

/-- The dict a row decodes to when get_parsed_data succeeds on it. -/
def parsedOf (r : ScheduleRow) : Dict :=
  match get_parsed_data r with
  | .ok d => d
  | .error _ => []

/-- The rows the refresh classification puts in the previous bucket. -/
def prevP (tnow : Int) (r : ScheduleRow) : Bool := decide (r.stop < tnow)

/-- The rows the refresh classification puts in the upnext bucket: the
elif makes it exclude rows already taken by previous. -/
def upP (tnow : Int) (r : ScheduleRow) : Bool :=
  !prevP tnow r && decide (r.start > tnow)

/-- The rows the refresh classification puts in the now bucket. -/
def nowP (tnow : Int) (r : ScheduleRow) : Bool :=
  !prevP tnow r && !upP tnow r && (decide (r.start ≤ tnow) && decide (tnow ≤ r.stop))

/-- The per-row predicate of the direct scan for a bucket name. -/
def scanP (key : String) (tnow : Int) (r : ScheduleRow) : Bool :=
  (key == "previous" && decide (r.stop < tnow)) ||
  (key == "upnext" && decide (r.start > tnow)) ||
  (key == "now" && (decide (r.start ≤ tnow) && decide (tnow ≤ r.stop))) ||
  (key == "all")

/-! Laws of the dict operations. -/

theorem beq_false_of_ne {α : Type} [BEq α] [LawfulBEq α] {a b : α} (h : a ≠ b) :
    (a == b) = false := by
  cases hab : a == b with
  | false => rfl
  | true => exact absurd (eq_of_beq hab) h

theorem dictGet_append_new (k k' : String) (v : JsonValue) (d : Dict)
    (h : containsKey d k = false) :
    dictGet (d ++ [(k, v)]) k' = if k' = k then some v else dictGet d k' := by
  induction d with
  | nil =>
    by_cases hk : k' = k
    · subst hk; simp [dictGet]
    · simp [dictGet, hk, beq_false_of_ne (fun he => hk he.symm)]
  | cons p rest ih =>
    obtain ⟨k0, v0⟩ := p
    simp only [containsKey, List.any_cons, Bool.or_eq_false_iff] at h
    obtain ⟨h0, hrest⟩ := h
    have ih' := ih (by simpa [containsKey] using hrest)
    simp only [List.cons_append, dictGet]
    cases h0' : (k0 == k') with
    | true =>
      have hk : ¬ k' = k := by
        intro he
        rw [eq_of_beq h0', he] at h0
        simp at h0
      simp [h0', hk]
    | false => simp [h0', ih']

theorem dictGet_replace_same (k : String) (v : JsonValue) (d : Dict)
    (h : containsKey d k = true) :
    dictGet (d.map (fun p => bif p.1 == k then (k, v) else p)) k = some v := by
  induction d with
  | nil => simp [containsKey] at h
  | cons p rest ih =>
    obtain ⟨k0, v0⟩ := p
    cases h0 : (k0 == k) with
    | true => simp [dictGet, h0]
    | false =>
      have h' : containsKey rest k = true := by
        simpa [containsKey, h0] using h
      simp [dictGet, h0, ih h']

theorem dictGet_replace_other (k k' : String) (v : JsonValue) (d : Dict)
    (hne : k' ≠ k) :
    dictGet (d.map (fun p => bif p.1 == k then (k, v) else p)) k' = dictGet d k' := by
  induction d with
  | nil => simp [dictGet]
  | cons p rest ih =>
    obtain ⟨k0, v0⟩ := p
    cases h0 : (k0 == k) with
    | true =>
      have e0 : k0 = k := eq_of_beq h0
      have hkk : (k == k') = false := beq_false_of_ne (fun he => hne he.symm)
      have hkk0 : (k0 == k') = false := by rw [e0]; exact hkk
      simp [dictGet, h0, hkk, hkk0, ih]
    | false =>
      simp [dictGet, h0, ih]

theorem dictGet_insert (d : Dict) (k k' : String) (v : JsonValue) :
    dictGet (dictInsert d k v) k' = if k' = k then some v else dictGet d k' := by
  cases hc : containsKey d k with
  | false => simpa [dictInsert, hc] using dictGet_append_new k k' v d hc
  | true =>
    simp only [dictInsert, hc, cond_true]
    by_cases hk : k' = k
    · subst hk; simp [dictGet_replace_same k' v d hc]
    · simp [dictGet_replace_other k k' v d hk, hk]

theorem dictGet_merge (kvs : Dict) : ∀ (base : Dict) (k : String),
    dictGet (dictMerge base kvs) k =
      match lookupLast kvs k with
      | some v => some v
      | none => dictGet base k := by
  induction kvs with
  | nil => intro base k; simp [dictMerge, lookupLast]
  | cons p rest ih =>
    intro base k
    obtain ⟨k0, v0⟩ := p
    have step : dictMerge base ((k0, v0) :: rest) = dictMerge (dictInsert base k0 v0) rest := by
      simp [dictMerge]
    rw [step, ih (dictInsert base k0 v0) k]
    cases hr : lookupLast rest k with
    | some v => simp [lookupLast, hr]
    | none =>
      simp only [lookupLast, hr, dictGet_insert]
      by_cases hk : k = k0
      · subst hk; simp
      · simp [hk, beq_false_of_ne (fun he => hk he.symm)]

/-! The bucket predicates of the refresh classification partition the
rows, and three-way filters of a partition recombine to the list. -/

theorem bucket_preds_one (tnow : Int) (r : ScheduleRow) :
    (prevP tnow r).toNat + (nowP tnow r).toNat + (upP tnow r).toNat = 1 := by
  by_cases h1 : r.stop < tnow
  · simp [prevP, upP, nowP, h1]
  · by_cases h2 : r.start > tnow
    · simp [prevP, upP, nowP, h1, h2]
    · have h3 : r.start ≤ tnow := by omega
      have h4 : tnow ≤ r.stop := by omega
      simp [prevP, upP, nowP, h1, h2, h3, h4]

theorem filter_three_perm {α : Type} (p1 p2 p3 : α → Bool)
    (h : ∀ x, (p1 x).toNat + (p2 x).toNat + (p3 x).toNat = 1) (l : List α) :
    List.Perm (l.filter p1 ++ l.filter p2 ++ l.filter p3) l := by
  induction l with
  | nil => simp
  | cons x l ihl =>
    have hx := h x
    cases h1 : p1 x <;> cases h2 : p2 x <;> cases h3 : p3 x <;>
      rw [h1, h2, h3] at hx <;> simp at hx
    · simp only [List.filter_cons, h1, h2, h3, if_neg, if_pos]
      simp only [Bool.false_eq_true, if_false, if_true]
      exact List.perm_middle.trans (ihl.cons x)
    · simp only [List.filter_cons, h1, h2, h3]
      simp only [Bool.false_eq_true, if_false, if_true]
      rw [List.append_assoc, List.cons_append]
      refine List.perm_middle.trans (List.Perm.cons x ?_)
      rw [← List.append_assoc]
      exact ihl
    · simp only [List.filter_cons, h1, h2, h3]
      simp only [Bool.false_eq_true, if_false, if_true]
      simp only [List.cons_append]
      exact ihl.cons x

/-! Characterization of the refresh loop and the direct scan. -/

theorem refresh_loop_ok (tnow : Int) :
    ∀ (rows : List ScheduleRow) (acc snap : CacheSnapshot),
    refresh_loop tnow rows acc = (snap, none) →
    (∀ r ∈ rows, get_parsed_data r = Except.ok (parsedOf r)) ∧
    snap.all = acc.all ++ rows.map parsedOf ∧
    snap.previous = acc.previous ++ (rows.filter (prevP tnow)).map parsedOf ∧
    snap.now = acc.now ++ (rows.filter (nowP tnow)).map parsedOf ∧
    snap.upnext = acc.upnext ++ (rows.filter (upP tnow)).map parsedOf := by
  intro rows
  induction rows with
  | nil =>
    intro acc snap h
    simp only [refresh_loop] at h
    have h1 : acc = snap := congrArg Prod.fst h
    subst h1
    simp
  | cons item rest ih =>
    intro acc snap h
    cases hp : get_parsed_data item with
    | error e =>
      simp only [refresh_loop, hp] at h
      exact absurd (congrArg Prod.snd h) (by simp)
    | ok d =>
      have hpi : parsedOf item = d := by simp [parsedOf, hp]
      simp only [refresh_loop, hp] at h
      split_ifs at h with h1 h2 h3
      · obtain ⟨hdec, hall, hprev, hnow, hup⟩ := ih _ snap h
        have hb1 : prevP tnow item = true := by simp [prevP, h1]
        have hb2 : nowP tnow item = false := by simp [nowP, prevP, h1]
        have hb3 : upP tnow item = false := by simp [upP, prevP, h1]
        refine ⟨?_, ?_, ?_, ?_, ?_⟩
        · intro r hr
          rcases List.mem_cons.mp hr with rfl | hr
          · simp [hp, hpi]
          · exact hdec r hr
        · simp only [hall]; simp [hpi, List.append_assoc]
        · simp only [hprev, List.filter_cons, hb1]
          simp [hpi, List.append_assoc]
        · simp only [hnow, List.filter_cons, hb2]
          simp
        · simp only [hup, List.filter_cons, hb3]
          simp
      · obtain ⟨hdec, hall, hprev, hnow, hup⟩ := ih _ snap h
        have hb1 : prevP tnow item = false := by simp [prevP, h1]
        have hb2 : nowP tnow item = false := by simp [nowP, upP, prevP, h1, h2]
        have hb3 : upP tnow item = true := by simp [upP, prevP, h1, h2]
        refine ⟨?_, ?_, ?_, ?_, ?_⟩
        · intro r hr
          rcases List.mem_cons.mp hr with rfl | hr
          · simp [hp, hpi]
          · exact hdec r hr
        · simp only [hall]; simp [hpi, List.append_assoc]
        · simp only [hprev, List.filter_cons, hb1]
          simp
        · simp only [hnow, List.filter_cons, hb2]
          simp
        · simp only [hup, List.filter_cons, hb3]
          simp [hpi, List.append_assoc]
      · obtain ⟨hdec, hall, hprev, hnow, hup⟩ := ih _ snap h
        have hb1 : prevP tnow item = false := by simp [prevP, h1]
        have hb2 : nowP tnow item = true := by
          simp [nowP, upP, prevP, h1, h2, h3.1, h3.2]
        have hb3 : upP tnow item = false := by simp [upP, prevP, h1, h2]
        refine ⟨?_, ?_, ?_, ?_, ?_⟩
        · intro r hr
          rcases List.mem_cons.mp hr with rfl | hr
          · simp [hp, hpi]
          · exact hdec r hr
        · simp only [hall]; simp [hpi, List.append_assoc]
        · simp only [hprev, List.filter_cons, hb1]
          simp
        · simp only [hnow, List.filter_cons, hb2]
          simp [hpi, List.append_assoc]
        · simp only [hup, List.filter_cons, hb3]
          simp
      · exact absurd ⟨by omega, by omega⟩ h3

theorem refresh_cache_ok {rows : List ScheduleRow} {tnow : Int} {snap : CacheSnapshot}
    (h : refresh_cache rows tnow = Except.ok snap) :
    refresh_loop tnow rows emptySnapshot = (snap, none) := by
  unfold refresh_cache at h
  rcases hl : refresh_loop tnow rows emptySnapshot with ⟨snap', err⟩
  rw [hl] at h
  cases err with
  | some e => simp at h
  | none =>
    simp only [Except.ok.injEq] at h
    rw [h]

theorem direct_scan_eq (key : String) (tnow : Int) :
    ∀ rows : List ScheduleRow,
      (∀ r ∈ rows, get_parsed_data r = Except.ok (parsedOf r)) →
      direct_scan key rows tnow = (rows.filter (scanP key tnow)).map parsedOf := by
  intro rows
  induction rows with
  | nil => intro _; simp [direct_scan]
  | cons item rest ih =>
    intro hdec
    have hitem := hdec item (List.mem_cons_self item rest)
    have hrest : ∀ r ∈ rest, get_parsed_data r = Except.ok (parsedOf r) :=
      fun r hr => hdec r (List.mem_cons_of_mem item hr)
    simp only [direct_scan, hitem]
    split_ifs with k1 k2 k3 k4
    · have hs : scanP key tnow item = true := by simp [scanP, k1]
      simp [List.filter_cons, hs, ih hrest]
    · have hs : scanP key tnow item = true := by simp [scanP, k2]
      simp [List.filter_cons, hs, ih hrest]
    · have hs : scanP key tnow item = true := by simp [scanP, k3]
      simp [List.filter_cons, hs, ih hrest]
    · have hs : scanP key tnow item = true := by simp [scanP, k4]
      simp [List.filter_cons, hs, ih hrest]
    · have hs : scanP key tnow item = false := by
        simp only [scanP, Bool.or_eq_false_iff]
        refine ⟨⟨⟨?_, ?_⟩, ?_⟩, ?_⟩ <;> simp_all
      simp [List.filter_cons, hs, ih hrest]

theorem scanP_previous (tnow : Int) (r : ScheduleRow) :
    scanP "previous" tnow r = prevP tnow r := by
  have e1 : ("previous" == "previous") = true := rfl
  have e2 : ("previous" == "upnext") = false := rfl
  have e3 : ("previous" == "now") = false := rfl
  have e4 : ("previous" == "all") = false := rfl
  simp [scanP, prevP, e1, e2, e3, e4]

theorem scanP_all (tnow : Int) (r : ScheduleRow) :
    scanP "all" tnow r = true := by
  have e1 : ("all" == "previous") = false := rfl
  have e2 : ("all" == "upnext") = false := rfl
  have e3 : ("all" == "now") = false := rfl
  have e4 : ("all" == "all") = true := rfl
  simp [scanP, e1, e2, e3, e4]

theorem scanP_now (tnow : Int) (r : ScheduleRow) :
    scanP "now" tnow r = nowP tnow r := by
  have e1 : ("now" == "previous") = false := rfl
  have e2 : ("now" == "upnext") = false := rfl
  have e3 : ("now" == "now") = true := rfl
  have e4 : ("now" == "all") = false := rfl
  by_cases h1 : r.stop < tnow
  · have hx : ¬ tnow ≤ r.stop := by omega
    simp [scanP, nowP, prevP, upP, e1, e2, e3, e4, h1, hx]
  · by_cases h2 : r.start > tnow
    · have hx : ¬ r.start ≤ tnow := by omega
      simp [scanP, nowP, prevP, upP, e1, e2, e3, e4, h1, h2, hx]
    · have h3 : r.start ≤ tnow := by omega
      have h4 : tnow ≤ r.stop := by omega
      simp [scanP, nowP, prevP, upP, e1, e2, e3, e4, h1, h2, h3, h4]

theorem scanP_upnext (tnow : Int) (r : ScheduleRow)
    (h : ¬(r.stop < tnow ∧ tnow < r.start)) :
    scanP "upnext" tnow r = upP tnow r := by
  have e1 : ("upnext" == "previous") = false := rfl
  have e2 : ("upnext" == "upnext") = true := rfl
  have e3 : ("upnext" == "now") = false := rfl
  have e4 : ("upnext" == "all") = false := rfl
  by_cases h2 : r.start > tnow
  · have h1 : ¬ r.stop < tnow := fun hc => h ⟨hc, h2⟩
    simp [scanP, upP, prevP, e1, e2, e3, e4, h1, h2]
  · simp [scanP, upP, prevP, e1, e2, e3, e4, h2]

/-! The claims. -/

/-- C1: for every set of rows and a fixed instant tnow, a successful
refresh_cache yields a snapshot whose all bucket lists every decoded row
in store order, whose previous, now and upnext buckets are exactly the
rows selected by the source tests (stop < now; otherwise start > now;
otherwise start ≤ now ≤ stop), and whose previous, now and upnext buckets
together are a permutation of all: every entry of all sits in exactly one
of them, malformed rows with start > stop included. -/
theorem C1_refresh_partition (rows : List ScheduleRow) (tnow : Int) (snap : CacheSnapshot)
    (h : refresh_cache rows tnow = Except.ok snap) :
    snap.all = rows.map parsedOf ∧
    snap.previous = (rows.filter (prevP tnow)).map parsedOf ∧
    snap.now = (rows.filter (nowP tnow)).map parsedOf ∧
    snap.upnext = (rows.filter (upP tnow)).map parsedOf ∧
    List.Perm (snap.previous ++ snap.now ++ snap.upnext) snap.all := by
  obtain ⟨hdec, hall, hprev, hnow, hup⟩ :=
    refresh_loop_ok tnow rows emptySnapshot snap (refresh_cache_ok h)
  simp only [emptySnapshot, List.nil_append] at hall hprev hnow hup
  refine ⟨hall, hprev, hnow, hup, ?_⟩
  rw [hall, hprev, hnow, hup]
  have hperm :=
    (filter_three_perm (prevP tnow) (nowP tnow) (upP tnow)
      (bucket_preds_one tnow) rows).map parsedOf
  simpa [List.map_append] using hperm

/-- Witness for C1: the three-show scenario of the specification at
tnow = 0, one show ended, one running, one upcoming. -/
theorem C1_witness :
    ([[("id", JsonValue.num 1), ("start", JsonValue.str "@-7200"),
       ("stop", JsonValue.str "@-3600"), ("raw_data", JsonValue.str "x")],
      [("id", JsonValue.num 2), ("start", JsonValue.str "@-1800"),
       ("stop", JsonValue.str "@1800"), ("raw_data", JsonValue.str "x")],
      [("id", JsonValue.num 3), ("start", JsonValue.str "@3600"),
       ("stop", JsonValue.str "@7200"), ("raw_data", JsonValue.str "x")]] : List Dict) =
      ([⟨1, -7200, -3600, "x"⟩, ⟨2, -1800, 1800, "x"⟩, ⟨3, 3600, 7200, "x"⟩] :
        List ScheduleRow).map parsedOf ∧
    ([[("id", JsonValue.num 1), ("start", JsonValue.str "@-7200"),
       ("stop", JsonValue.str "@-3600"), ("raw_data", JsonValue.str "x")]] : List Dict) =
      (([⟨1, -7200, -3600, "x"⟩, ⟨2, -1800, 1800, "x"⟩, ⟨3, 3600, 7200, "x"⟩] :
        List ScheduleRow).filter (prevP 0)).map parsedOf ∧
    ([[("id", JsonValue.num 2), ("start", JsonValue.str "@-1800"),
       ("stop", JsonValue.str "@1800"), ("raw_data", JsonValue.str "x")]] : List Dict) =
      (([⟨1, -7200, -3600, "x"⟩, ⟨2, -1800, 1800, "x"⟩, ⟨3, 3600, 7200, "x"⟩] :
        List ScheduleRow).filter (nowP 0)).map parsedOf ∧
    ([[("id", JsonValue.num 3), ("start", JsonValue.str "@3600"),
       ("stop", JsonValue.str "@7200"), ("raw_data", JsonValue.str "x")]] : List Dict) =
      (([⟨1, -7200, -3600, "x"⟩, ⟨2, -1800, 1800, "x"⟩, ⟨3, 3600, 7200, "x"⟩] :
        List ScheduleRow).filter (upP 0)).map parsedOf ∧
    List.Perm
      (([[("id", JsonValue.num 1), ("start", JsonValue.str "@-7200"),
          ("stop", JsonValue.str "@-3600"), ("raw_data", JsonValue.str "x")]] : List Dict) ++
        [[("id", JsonValue.num 2), ("start", JsonValue.str "@-1800"),
          ("stop", JsonValue.str "@1800"), ("raw_data", JsonValue.str "x")]] ++
        [[("id", JsonValue.num 3), ("start", JsonValue.str "@3600"),
          ("stop", JsonValue.str "@7200"), ("raw_data", JsonValue.str "x")]])
      [[("id", JsonValue.num 1), ("start", JsonValue.str "@-7200"),
        ("stop", JsonValue.str "@-3600"), ("raw_data", JsonValue.str "x")],
       [("id", JsonValue.num 2), ("start", JsonValue.str "@-1800"),
        ("stop", JsonValue.str "@1800"), ("raw_data", JsonValue.str "x")],
       [("id", JsonValue.num 3), ("start", JsonValue.str "@3600"),
        ("stop", JsonValue.str "@7200"), ("raw_data", JsonValue.str "x")]] :=
  C1_refresh_partition
    [⟨1, -7200, -3600, "x"⟩, ⟨2, -1800, 1800, "x"⟩, ⟨3, 3600, 7200, "x"⟩] 0
    ⟨[[("id", JsonValue.num 1), ("start", JsonValue.str "@-7200"),
       ("stop", JsonValue.str "@-3600"), ("raw_data", JsonValue.str "x")]],
     [[("id", JsonValue.num 3), ("start", JsonValue.str "@3600"),
       ("stop", JsonValue.str "@7200"), ("raw_data", JsonValue.str "x")]],
     [[("id", JsonValue.num 2), ("start", JsonValue.str "@-1800"),
       ("stop", JsonValue.str "@1800"), ("raw_data", JsonValue.str "x")]],
     [[("id", JsonValue.num 1), ("start", JsonValue.str "@-7200"),
       ("stop", JsonValue.str "@-3600"), ("raw_data", JsonValue.str "x")],
      [("id", JsonValue.num 2), ("start", JsonValue.str "@-1800"),
       ("stop", JsonValue.str "@1800"), ("raw_data", JsonValue.str "x")],
      [("id", JsonValue.num 3), ("start", JsonValue.str "@3600"),
       ("stop", JsonValue.str "@7200"), ("raw_data", JsonValue.str "x")]]⟩
    rfl

/-- C2 amended: get_parsed_data returns the raw_data wrapper merged after
the id, start and stop fields only when json.loads itself fails; a payload
decoding to a JSON object is merged after those fields, each of its keys
keeping its decoded value; but a payload decoding to non-object JSON (an
array, number, string, boolean or null) raises an uncaught TypeError
instead of being wrapped, because only the JSONDecodeError of the parse is
caught and the double-star expansion then fails. -/
theorem C2_decode (item : ScheduleRow) (kvs : Dict) (k : String) (v : JsonValue)
    (j : JsonValue) :
    (json_loads item.data = none →
      get_parsed_data item =
        Except.ok (baseEntry item ++ [("raw_data", JsonValue.str item.data)])) ∧
    (json_loads item.data = some (JsonValue.obj kvs) →
      get_parsed_data item = Except.ok (dictMerge (baseEntry item) kvs) ∧
      (lookupLast kvs k = some v →
        dictGet (dictMerge (baseEntry item) kvs) k = some v)) ∧
    (json_loads item.data = some j → j.isObjB = false →
      get_parsed_data item = Except.error PyErr.typeError) := by
  refine ⟨?_, ?_, ?_⟩
  · intro hj
    simp only [get_parsed_data, hj]
    rfl
  · intro hj
    refine ⟨by simp only [get_parsed_data, hj], ?_⟩
    intro hlast
    rw [dictGet_merge kvs (baseEntry item) k, hlast]
  · intro hj hobj
    cases j with
    | obj kvs2 => simp [JsonValue.isObjB] at hobj
    | null => simp [get_parsed_data, hj]
    | bool b => simp [get_parsed_data, hj]
    | num n => simp [get_parsed_data, hj]
    | str s => simp [get_parsed_data, hj]
    | arr xs => simp [get_parsed_data, hj]

/-- Counterexample to C2 as stated: a payload that is a JSON array is
valid JSON but not an object; get_parsed_data raises TypeError on it
instead of returning the raw_data wrapper. -/
theorem C2_counterexample :
    get_parsed_data ⟨7, 0, 1, "[1, 2, 3]"⟩ = Except.error PyErr.typeError ∧
    (Except.error PyErr.typeError ≠
      (Except.ok [("raw_data", JsonValue.str "[1, 2, 3]")] : Except PyErr Dict)) :=
  ⟨rfl, fun hc => Except.noConfusion hc⟩

/-- Witness for C2: an object payload with title and description decodes
with those fields preserved. -/
theorem C2_witness :
    get_parsed_data ⟨1, 2, 3, "\x7b\"title\": \"News\", \"description\": \"Daily\"\x7d"⟩ =
      Except.ok (dictMerge
        (baseEntry ⟨1, 2, 3, "\x7b\"title\": \"News\", \"description\": \"Daily\"\x7d"⟩)
        [("title", JsonValue.str "News"), ("description", JsonValue.str "Daily")]) ∧
    dictGet (dictMerge
        (baseEntry ⟨1, 2, 3, "\x7b\"title\": \"News\", \"description\": \"Daily\"\x7d"⟩)
        [("title", JsonValue.str "News"), ("description", JsonValue.str "Daily")]) "title" =
      some (JsonValue.str "News") := by
  have h := (C2_decode ⟨1, 2, 3, "\x7b\"title\": \"News\", \"description\": \"Daily\"\x7d"⟩
    [("title", JsonValue.str "News"), ("description", JsonValue.str "Daily")]
    "title" (JsonValue.str "News") JsonValue.null).2.1 rfl
  exact ⟨h.1, h.2 rfl⟩

/-- C3 amended: against the same rows and the same instant, whenever
refresh_cache succeeds the direct scan of get_cached_data returns exactly
the snapshot bucket for the previous, now and all buckets; for the upnext
bucket it agrees on every store with no row satisfying
stop < now < start, but a malformed row with stop < now < start is
classified previous by refresh_cache yet returned by the direct upnext
scan, because the scan tests start > now alone without the elif guard. -/
theorem C3_scan_matches_classifier (rows : List ScheduleRow) (tnow : Int)
    (snap : CacheSnapshot) (h : refresh_cache rows tnow = Except.ok snap) :
    direct_scan "previous" rows tnow = snap.previous ∧
    direct_scan "now" rows tnow = snap.now ∧
    direct_scan "all" rows tnow = snap.all ∧
    ((∀ r ∈ rows, ¬(r.stop < tnow ∧ tnow < r.start)) →
      direct_scan "upnext" rows tnow = snap.upnext) := by
  obtain ⟨hdec, hall, hprev, hnow, hup⟩ :=
    refresh_loop_ok tnow rows emptySnapshot snap (refresh_cache_ok h)
  simp only [emptySnapshot, List.nil_append] at hall hprev hnow hup
  refine ⟨?_, ?_, ?_, ?_⟩
  · rw [direct_scan_eq "previous" tnow rows hdec, hprev]
    exact congrArg (List.map parsedOf)
      (List.filter_congr (fun r _ => scanP_previous tnow r))
  · rw [direct_scan_eq "now" tnow rows hdec, hnow]
    exact congrArg (List.map parsedOf)
      (List.filter_congr (fun r _ => scanP_now tnow r))
  · rw [direct_scan_eq "all" tnow rows hdec, hall]
    exact congrArg (List.map parsedOf)
      (List.filter_eq_self.mpr (fun r _ => scanP_all tnow r))
  · intro hmal
    rw [direct_scan_eq "upnext" tnow rows hdec, hup]
    exact congrArg (List.map parsedOf)
      (List.filter_congr (fun r hr => scanP_upnext tnow r (hmal r hr)))

/-- Counterexample to C3 as stated: the malformed row start = 10,
stop = 0 at tnow = 5 is put in previous by the classifier, so the upnext
snapshot bucket is empty, yet the direct upnext scan returns the row. -/
theorem C3_counterexample :
    (refresh_cache [⟨1, 10, 0, "x"⟩] 5).map CacheSnapshot.upnext = Except.ok [] ∧
    direct_scan "upnext" [⟨1, 10, 0, "x"⟩] 5 ≠ [] := by
  refine ⟨rfl, ?_⟩
  have hv : direct_scan "upnext" [⟨1, 10, 0, "x"⟩] 5 =
      [[("id", JsonValue.num 1), ("start", JsonValue.str "@10"),
        ("stop", JsonValue.str "@0"), ("raw_data", JsonValue.str "x")]] := rfl
  rw [hv]
  exact List.cons_ne_nil _ _

/-- Witness for C3: a single well-formed upcoming row at tnow = 0, where
scan and classifier agree on all four buckets. -/
theorem C3_witness :
    direct_scan "previous" [⟨1, 1, 2, "x"⟩] 0 = [] ∧
    direct_scan "now" [⟨1, 1, 2, "x"⟩] 0 = [] ∧
    direct_scan "all" [⟨1, 1, 2, "x"⟩] 0 =
      [[("id", JsonValue.num 1), ("start", JsonValue.str "@1"),
        ("stop", JsonValue.str "@2"), ("raw_data", JsonValue.str "x")]] ∧
    direct_scan "upnext" [⟨1, 1, 2, "x"⟩] 0 =
      [[("id", JsonValue.num 1), ("start", JsonValue.str "@1"),
        ("stop", JsonValue.str "@2"), ("raw_data", JsonValue.str "x")]] := by
  have h := C3_scan_matches_classifier [⟨1, 1, 2, "x"⟩] 0
    ⟨[], [[("id", JsonValue.num 1), ("start", JsonValue.str "@1"),
          ("stop", JsonValue.str "@2"), ("raw_data", JsonValue.str "x")]], [],
      [[("id", JsonValue.num 1), ("start", JsonValue.str "@1"),
        ("stop", JsonValue.str "@2"), ("raw_data", JsonValue.str "x")]]⟩ rfl
  exact ⟨h.1, h.2.1, h.2.2.1, h.2.2.2 (by decide)⟩

/-- C4 amended: get_cached_data is total (its model returns a value for
every store behaviour: every internal exception is caught).  When the
cache fast path is not taken, a failing row query yields the empty list,
and otherwise the returned value is exactly the direct scan of the fetched
rows, whatever the opportunistic refresh afterwards does, so a refresh
failure never changes the value already computed for the caller.  When the
cache fast path is taken the cached bucket is served without scanning, so
a store with every query failing can still yield a non-empty cached
result; the empty-sequence degradation holds only off the fast path. -/
theorem C4_no_raise (enabled : Bool) (ttl : Int) (key : String) (st : CacheState)
    (db : DbBehavior) (tnow : Int) :
    ((enabled && check_cache_validity enabled ttl st db tnow) = true →
      (get_cached_data_st enabled ttl key st db tnow).fst = cacheGet st key) ∧
    ((enabled && check_cache_validity enabled ttl st db tnow) = false →
      (∀ e, db.rowsResult = Except.error e →
        (get_cached_data_st enabled ttl key st db tnow).fst = []) ∧
      (∀ rows, db.rowsResult = Except.ok rows →
        (get_cached_data_st enabled ttl key st db tnow).fst =
          direct_scan key rows tnow)) := by
  constructor
  · intro hfast
    simp [get_cached_data_st, hfast]
  · intro hslow
    constructor
    · intro e he
      simp [get_cached_data_st, hslow, he]
    · intro rows hr
      simp only [get_cached_data_st, hslow, Bool.false_eq_true, if_false, hr]
      split_ifs <;> rfl

/-- Counterexample to C4 as stated: with a warm, TTL-fresh cache and a
store whose every query raises, get_cached_data returns the cached bucket,
not the empty sequence. -/
theorem C4_counterexample :
    (get_cached_data_st true 300 "all"
        ⟨some ⟨[], [], [], [[("id", JsonValue.num 1)]]⟩, some 0⟩
        ⟨Except.error PyErr.storeFailure, Except.error PyErr.storeFailure⟩ 100).fst =
      [[("id", JsonValue.num 1)]] ∧
    ([[("id", JsonValue.num 1)]] : List Dict) ≠ [] :=
  ⟨rfl, List.cons_ne_nil _ _⟩

/-- Witness for C4: with caching disabled and a failing row query the
returned value is empty. -/
theorem C4_witness :
    (get_cached_data_st false 300 "all" ⟨none, none⟩
        ⟨Except.error PyErr.storeFailure, Except.ok none⟩ 0).fst = [] :=
  ((C4_no_raise false 300 "all" ⟨none, none⟩
      ⟨Except.error PyErr.storeFailure, Except.ok none⟩ 0).2 rfl).1
    PyErr.storeFailure rfl

/-- C5: with caching enabled, a snapshot timestamp clu, and the store
timestamp check yielding no signal, check_cache_validity with TTL 300 is
true at clu + 299 and false at clu + 301; in general for a positive TTL
it is false exactly when now minus the snapshot timestamp exceeds the
TTL. -/
theorem C5_ttl_boundary (st : CacheState) (db : DbBehavior) (clu : Int)
    (hclu : st.cache_last_updated = some clu)
    (hsig : ∀ t, db.maxTsResult = Except.ok (some t) → t ≤ clu) :
    check_cache_validity true 300 st db (clu + 299) = true ∧
    check_cache_validity true 300 st db (clu + 301) = false ∧
    (∀ ttl tnow, 0 < ttl →
      (check_cache_validity true ttl st db tnow = false ↔ tnow - clu > ttl)) := by
  have hchar : ∀ ttl tnow, check_cache_validity true ttl st db tnow =
      !(decide (0 < ttl) && decide (tnow - clu > ttl)) := by
    intro ttl tnow
    simp only [check_cache_validity, hclu]
    cases hcond : (decide (0 < ttl) && decide (tnow - clu > ttl)) with
    | true => simp
    | false =>
      simp only [Bool.not_false, Bool.not_true, if_false]
      cases hm : db.maxTsResult with
      | error e => simp
      | ok o =>
        cases o with
        | none => simp
        | some t =>
          have ht : ¬ t > clu := by
            have := hsig t hm
            omega
          simp [ht]
  refine ⟨?_, ?_, ?_⟩
  · have hno : ¬ (clu + 299 - clu > 300) := by omega
    simp [hchar, hno]
  · have hyes : clu + 301 - clu > 300 := by omega
    simp [hchar, hyes]
  · intro ttl tnow httl
    rw [hchar]
    simp [httl]

/-- Witness for C5: a cache computed at instant 0 with no store signal is
valid at 299 seconds and invalid at 301 seconds. -/
theorem C5_witness :
    check_cache_validity true 300 ⟨none, some 0⟩ ⟨Except.ok [], Except.ok none⟩
      ((0 : Int) + 299) = true ∧
    check_cache_validity true 300 ⟨none, some 0⟩ ⟨Except.ok [], Except.ok none⟩
      ((0 : Int) + 301) = false := by
  have h := C5_ttl_boundary ⟨none, some 0⟩ ⟨Except.ok [], Except.ok none⟩ 0 rfl
    (fun t ht => by simp at ht)
  exact ⟨h.1, h.2.1⟩

/-- C6: a query string carrying a T, plus sign or Z is an exact instant
whose window is the degenerate pair of that instant; a query with no
colon and no such marker is a calendar day whose window runs from
00:00:00.000000 to 23:59:59.999999 of the parsed day; an entry is in the
result exactly when both its timestamps parse and start ≤ window end and
stop ≥ window start; and the one-hour show from 10:00 is found at
10:00:00Z and on its calendar day but not at 11:00:01Z. -/
theorem C6_time_lookup (time_str : String) (parsed : PyDateTime)
    (all_items : List TimedItem) :
    ((hasChar time_str 'T' || hasChar time_str '+' || hasChar time_str 'Z') = true →
      parse_timestamp_lenient time_str parsed = (parsed, parsed)) ∧
    ((hasChar time_str 'T' || hasChar time_str '+' || hasChar time_str 'Z') = false →
      time_str.data.count ':' = 0 →
      parse_timestamp_lenient time_str parsed = (startOfDay parsed, endOfDay parsed)) ∧
    (∀ it, it ∈ get_schedule_at_time time_str parsed all_items ↔
      it ∈ all_items ∧ ∃ s e, it.start = some s ∧ it.stop = some e ∧
        dtLe s (parse_timestamp_lenient time_str parsed).2 = true ∧
        dtLe (parse_timestamp_lenient time_str parsed).1 e = true) ∧
    ((⟨some ⟨2023, 1, 1, 10, 0, 0, 0⟩, some ⟨2023, 1, 1, 11, 0, 0, 0⟩, "show"⟩ : TimedItem) ∈
      get_schedule_at_time "2023-01-01T10:00:00Z" ⟨2023, 1, 1, 10, 0, 0, 0⟩
        [⟨some ⟨2023, 1, 1, 10, 0, 0, 0⟩, some ⟨2023, 1, 1, 11, 0, 0, 0⟩, "show"⟩]) ∧
    ((⟨some ⟨2023, 1, 1, 10, 0, 0, 0⟩, some ⟨2023, 1, 1, 11, 0, 0, 0⟩, "show"⟩ : TimedItem) ∈
      get_schedule_at_time "2023-01-01" ⟨2023, 1, 1, 0, 0, 0, 0⟩
        [⟨some ⟨2023, 1, 1, 10, 0, 0, 0⟩, some ⟨2023, 1, 1, 11, 0, 0, 0⟩, "show"⟩]) ∧
    ((⟨some ⟨2023, 1, 1, 10, 0, 0, 0⟩, some ⟨2023, 1, 1, 11, 0, 0, 0⟩, "show"⟩ : TimedItem) ∉
      get_schedule_at_time "2023-01-01T11:00:01Z" ⟨2023, 1, 1, 11, 0, 1, 0⟩
        [⟨some ⟨2023, 1, 1, 10, 0, 0, 0⟩, some ⟨2023, 1, 1, 11, 0, 0, 0⟩, "show"⟩]) := by
  refine ⟨?_, ?_, ?_, by decide, by decide, by decide⟩
  · intro hc
    simp [parse_timestamp_lenient, hc]
  · intro hc hcount
    have hor := Bool.or_eq_false_iff.mp hc
    have hor2 := Bool.or_eq_false_iff.mp hor.1
    simp [parse_timestamp_lenient, hor2.1, hor2.2, hor.2, hcount]
  · intro it
    simp only [get_schedule_at_time, List.mem_filter]
    cases hs : it.start with
    | none => simp [hs]
    | some s =>
      cases he : it.stop with
      | none => simp [hs, he]
      | some e => simp [hs, he, Bool.and_eq_true]

/-- Witness for C6: the instant window of an ISO timestamp and the
day window of a bare date. -/
theorem C6_witness :
    parse_timestamp_lenient "2023-01-01T10:00:00Z" ⟨2023, 1, 1, 10, 0, 0, 0⟩ =
      (⟨2023, 1, 1, 10, 0, 0, 0⟩, ⟨2023, 1, 1, 10, 0, 0, 0⟩) ∧
    parse_timestamp_lenient "2023-01-01" ⟨2023, 1, 1, 0, 0, 0, 0⟩ =
      (startOfDay ⟨2023, 1, 1, 0, 0, 0, 0⟩, endOfDay ⟨2023, 1, 1, 0, 0, 0, 0⟩) :=
  ⟨(C6_time_lookup "2023-01-01T10:00:00Z" ⟨2023, 1, 1, 10, 0, 0, 0⟩ []).1 (by decide),
   (C6_time_lookup "2023-01-01" ⟨2023, 1, 1, 0, 0, 0, 0⟩ []).2.1 (by decide) (by decide)⟩

/-- C7 amended: search_schedule raises its HTTP 400 error exactly when
both terms are falsy, so absent or empty; when at least one term is
non-empty it returns the entries of the all bucket matched by the loop,
and an entry matches exactly when some supplied non-empty term is a
case-insensitive substring of the rendered corresponding field, a field
the entry lacks never matching. -/
theorem C7_search (title description : Option String) (all_items : List Dict) :
    (search_schedule title description all_items = Except.error searchErr ↔
      pyTruthy title = false ∧ pyTruthy description = false) ∧
    ((pyTruthy title = true ∨ pyTruthy description = true) →
      search_schedule title description all_items =
        Except.ok (all_items.filter (searchMatch title description))) ∧
    (∀ d : Dict, searchMatch title description d = true ↔
      ((∃ t, title = some t ∧ t ≠ "" ∧ (∃ v, dictGet d "title" = some v ∧
          strIn (lowerStr t) (lowerStr (pyStr v)) = true)) ∨
       (∃ s, description = some s ∧ s ≠ "" ∧ (∃ v, dictGet d "description" = some v ∧
          strIn (lowerStr s) (lowerStr (pyStr v)) = true)))) ∧
    (∀ d : Dict, d ∈ all_items.filter (searchMatch title description) ↔
      d ∈ all_items ∧ searchMatch title description d = true) := by
  refine ⟨?_, ?_, ?_, fun d => List.mem_filter⟩
  · unfold search_schedule
    cases hcond : (!pyTruthy title && !pyTruthy description) with
    | true =>
      have hp : pyTruthy title = false ∧ pyTruthy description = false := by
        simpa [Bool.not_eq_true'] using hcond
      simp [hcond, hp.1, hp.2]
    | false =>
      have hno : ¬(pyTruthy title = false ∧ pyTruthy description = false) := by
        intro hb
        rw [hb.1, hb.2] at hcond
        simp at hcond
      simp [hcond, hno]
  · intro hor
    have hcond : (!pyTruthy title && !pyTruthy description) = false := by
      rcases hor with h | h <;> simp [h]
    simp [search_schedule, hcond]
  · intro d
    simp only [searchMatch]
    cases title with
    | none =>
      cases description with
      | none => simp
      | some s =>
        cases hg : dictGet d "description" with
        | none => simp [hg]
        | some v => simp [hg, and_assoc]
    | some t =>
      cases description with
      | none =>
        cases hg : dictGet d "title" with
        | none => simp [hg]
        | some v => simp [hg, and_assoc]
      | some s =>
        cases hg1 : dictGet d "title" with
        | none =>
          cases hg2 : dictGet d "description" with
          | none => simp [hg1, hg2]
          | some v2 => simp [hg1, hg2, and_assoc]
        | some v1 =>
          cases hg2 : dictGet d "description" with
          | none => simp [hg1, hg2, and_assoc]
          | some v2 => simp [hg1, hg2, and_assoc]

/-- Counterexample to C7 as stated: both terms supplied but empty are
present, yet the call raises the HTTP 400 error instead of searching. -/
theorem C7_counterexample :
    search_schedule (some "") (some "") [[("title", JsonValue.str "Morning News")]] =
      Except.error searchErr := rfl

/-- Witness for C7: the term news matches Morning News case
insensitively and an entry without a title field is excluded. -/
theorem C7_witness :
    search_schedule (some "news") none
        [[("title", JsonValue.str "Morning News")],
         [("description", JsonValue.str "Sports")]] =
      Except.ok [[("title", JsonValue.str "Morning News")]] :=
  (C7_search (some "news") none
      [[("title", JsonValue.str "Morning News")],
       [("description", JsonValue.str "Sports")]]).2.1 (Or.inl rfl)

/-- C8 amended: once the credential check passes, manual_cache_refresh
invokes refresh_cache exactly when caching is enabled, bypassing the
validity check; with caching disabled it refreshes nothing and answers
Cache is disabled; with caching enabled it reports success or propagates
the refresh failure; the response equals Cache is disabled exactly when
caching is disabled, so it reports whether caching is enabled. -/
theorem C8_admin_refresh (api_key admin_key : String) (enabled : Bool)
    (st : CacheState) (db : DbBehavior) (tnow : Int) (hkey : api_key = admin_key) :
    (enabled = false →
      manual_cache_refresh api_key admin_key enabled st db tnow =
        (Except.ok "Cache is disabled", false, st)) ∧
    (enabled = true →
      (manual_cache_refresh api_key admin_key enabled st db tnow).2.1 = true ∧
      ((refresh_cache_st st db tnow).2 = none →
        manual_cache_refresh api_key admin_key enabled st db tnow =
          (Except.ok "Cache refreshed successfully", true, (refresh_cache_st st db tnow).1)) ∧
      (∀ e, (refresh_cache_st st db tnow).2 = some e →
        manual_cache_refresh api_key admin_key enabled st db tnow =
          (Except.error e, true, (refresh_cache_st st db tnow).1))) ∧
    ((manual_cache_refresh api_key admin_key enabled st db tnow).1 =
        Except.ok "Cache is disabled" ↔ enabled = false) := by
  subst hkey
  have hmsg : ("Cache refreshed successfully" : String) ≠ "Cache is disabled" := by decide
  rcases hrc : refresh_cache_st st db tnow with ⟨st2, err⟩
  cases enabled with
  | false =>
    refine ⟨?_, ?_, ?_⟩
    · intro _
      simp [manual_cache_refresh]
    · intro hb
      cases hb
    · simp [manual_cache_refresh]
  | true =>
    cases err with
    | none =>
      refine ⟨?_, ?_, ?_⟩
      · intro hb
        cases hb
      · intro _
        refine ⟨?_, ?_, ?_⟩
        · simp [manual_cache_refresh, hrc]
        · intro _
          simp [manual_cache_refresh, hrc]
        · intro e he
          cases he
      · simp [manual_cache_refresh, hrc, hmsg]
    | some e0 =>
      refine ⟨?_, ?_, ?_⟩
      · intro hb
        cases hb
      · intro _
        refine ⟨?_, ?_, ?_⟩
        · simp [manual_cache_refresh, hrc]
        · intro hn
          cases hn
        · intro e he
          simp only [Option.some.injEq] at he
          subst he
          simp [manual_cache_refresh, hrc]
      · simp [manual_cache_refresh, hrc]

/-- Counterexample to C8 as stated: with caching disabled and the
credential check passing, the handler answers without ever invoking
refresh_cache, so the refresh is not unconditional. -/
theorem C8_counterexample :
    manual_cache_refresh "k" "k" false ⟨none, none⟩ ⟨Except.ok [], Except.ok none⟩ 0 =
      (Except.ok "Cache is disabled", false, ⟨none, none⟩) := rfl

/-- Witness for C8: with caching enabled the handler does invoke
refresh_cache. -/
theorem C8_witness :
    (manual_cache_refresh "k" "k" true ⟨none, none⟩ ⟨Except.ok [], Except.ok none⟩ 0).2.1 =
      true :=
  ((C8_admin_refresh "k" "k" true ⟨none, none⟩ ⟨Except.ok [], Except.ok none⟩ 0 rfl).2.1
    rfl).1

/-- C9: the decoded payload is merged after the id, start and stop
fields, so any id, start or stop key in an object payload overrides the
record fields of the same name: the final dict yields the payload value
for every key the payload carries. -/
theorem C9_payload_overrides (item : ScheduleRow) (kvs : Dict) (k : String) (v : JsonValue)
    (hparse : json_loads item.data = some (JsonValue.obj kvs))
    (hlast : lookupLast kvs k = some v) :
    get_parsed_data item = Except.ok (parsedOf item) ∧
    dictGet (parsedOf item) k = some v := by
  have hgo : get_parsed_data item = Except.ok (dictMerge (baseEntry item) kvs) := by
    simp only [get_parsed_data, hparse]
  have hpo : parsedOf item = dictMerge (baseEntry item) kvs := by
    simp [parsedOf, hgo]
  refine ⟨by rw [hgo, hpo], ?_⟩
  rw [hpo, dictGet_merge kvs (baseEntry item) k, hlast]

/-- Witness for C9: a payload id of 999 overrides the record id 1. -/
theorem C9_witness :
    get_parsed_data ⟨1, 0, 10, "\x7b\"id\": 999\x7d"⟩ =
      Except.ok (parsedOf ⟨1, 0, 10, "\x7b\"id\": 999\x7d"⟩) ∧
    dictGet (parsedOf ⟨1, 0, 10, "\x7b\"id\": 999\x7d"⟩) "id" =
      some (JsonValue.num 999) :=
  C9_payload_overrides ⟨1, 0, 10, "\x7b\"id\": 999\x7d"⟩ [("id", JsonValue.num 999)]
    "id" (JsonValue.num 999) rfl rfl

/-- C10: search with both terms present but empty takes the same falsy
branch as search with both terms absent, raising the identical HTTP 400
error instead of matching every entry. -/
theorem C10_empty_terms (items : List Dict) :
    search_schedule (some "") (some "") items = search_schedule none none items ∧
    search_schedule (some "") (some "") items = Except.error searchErr :=
  ⟨rfl, rfl⟩

end ChuntFM
